import Mathlib

/-!
Shallow embedding of the `check-all-commits-have-jira-issue` tool.

The Rust sources embedded here are `src/jira_utils.rs` (ticket-key
extraction and the Jira existence check), `src/git_utils.rs` (the range
resolver built on libgit2, modelled as an abstract repository of
functions), and `src/main.rs` (the validation orchestrator, summary and
exit-code logic).  External collaborators (the git object database and
the HTTP transport) are parameters of the embedded functions; everything
the Rust code itself computes is translated directly.
-/

/-- A single-quote character, used when rebuilding the exact error strings
the Rust code produces with `format!` around quoted reference names. -/
def quoteS : String := String.singleton (Char.ofNat 39)

/-- Character class `[A-Z]` of the key regex in `jira_utils.rs`. -/
def isUpperAZ (c : Char) : Bool := 65 ≤ c.toNat && c.toNat ≤ 90

/-- Character class `[0-9]` of the key regex in `jira_utils.rs`. -/
def isDigit09 (c : Char) : Bool := 48 ≤ c.toNat && c.toNat ≤ 57

/-- Lowercase ASCII letters `[a-z]`; the key regex never accepts these. -/
def isLowerAZ (c : Char) : Bool := 97 ≤ c.toNat && c.toNat ≤ 122

/-- Leftmost-greedy match of the regex `[A-Z]+-[0-9]+` anchored at the head
of `s`: the maximal uppercase run, a hyphen, then the maximal digit run.
Returns the matched key together with the remaining input.  A match starting
at the head exists exactly when this returns `some`, because shrinking the
greedy uppercase run would put the required hyphen on an uppercase letter. -/
def startKey (s : List Char) : Option (List Char × List Char) :=
  match s.takeWhile isUpperAZ with
  | [] => none
  | u0 :: u1 =>
    match s.dropWhile isUpperAZ with
    | [] => none
    | c :: r2 =>
      if c = '-' then
        match r2.takeWhile isDigit09 with
        | [] => none
        | d0 :: d1 => some ((u0 :: u1) ++ c :: d0 :: d1, r2.dropWhile isDigit09)
      else none

/-- The scanning loop of `captures_iter`: walk the text left to right; at
each position emit the anchored match if there is one and continue after it,
otherwise advance one character.  `fuel` bounds the recursion; `s.length`
steps always suffice since every step consumes at least one character. -/
def scanKeysF : Nat → List Char → List (List Char)
  | 0, _ => []
  | _ + 1, [] => []
  | fuel + 1, c :: rest =>
    match startKey (c :: rest) with
    | some (k, r) => k :: scanKeysF fuel r
    | none => scanKeysF fuel rest

/-- Function `extract_jira_keys` from `src/jira_utils.rs`: all non-overlapping
matches of `[A-Z]+-[0-9]+` in the commit message, left to right. -/
def extract_jira_keys (commit_message : String) : List String :=
  (scanKeysF commit_message.data.length commit_message.data).map String.mk

/-- The full-string language of the regex `[A-Z]+-[0-9]+`: a nonempty
uppercase run, a hyphen, then a nonempty digit run. -/
def MatchesKeyPat (l : List Char) : Prop :=
  ∃ u d, l = u ++ '-' :: d ∧ u ≠ [] ∧ d ≠ [] ∧
    (∀ c ∈ u, isUpperAZ c = true) ∧ (∀ c ∈ d, isDigit09 c = true)

/-- Predicate `OccursInOrder ks s` says the words `ks` appear in `s` as
non-overlapping substrings, in the given order. -/
inductive OccursInOrder : List (List Char) → List Char → Prop
  | nil (s : List Char) : OccursInOrder [] s
  | skip (ks : List (List Char)) (c : Char) (s : List Char) :
      OccursInOrder ks s → OccursInOrder ks (c :: s)
  | key (k : List Char) (ks : List (List Char)) (s : List Char) :
      OccursInOrder ks s → OccursInOrder (k :: ks) (k ++ s)

/-- Tests that `needle` is a leading segment of `hay`. -/
def startsWithL : List Char → List Char → Bool
  | [], _ => true
  | _ :: _, [] => false
  | a :: as_, b :: bs => a = b && startsWithL as_ bs

/-- Tests that `needle` occurs contiguously somewhere in `hay`. -/
def occursL : List Char → List Char → Bool
  | n, [] => n.isEmpty
  | n, c :: t => startsWithL n (c :: t) || occursL n t

/-- String containment, used to state which phrases an error message
mentions. -/
def strContains (hay needle : String) : Bool := occursL needle.data hay.data

/-- Rust `str::trim_end_matches` specialised to a single-character pattern:
removes every trailing occurrence of `c`. -/
def trim_end_matches (s : String) (c : Char) : String :=
  String.mk ((s.data.reverse.dropWhile (fun x => x = c)).reverse)

/-- The lookup URL built in `check_jira_issue_exists`:
`format!("{}/rest/api/2/issue/{}", jira_url.trim_end_matches('/'), issue_key)`. -/
def jira_api_url (jira_url issue_key : String) : String :=
  trim_end_matches jira_url '/' ++ "/rest/api/2/issue/" ++ issue_key

/-- Outcome of the single HTTP GET: either a transport-level failure with
the transport error text, or a response with a status code and a body. -/
inductive HttpOutcome where
  | transport (err : String)
  | response (status : Nat) (body : String)
deriving DecidableEq

/-- Function `check_jira_issue_exists` from `src/jira_utils.rs`, as a pure function
of the remote outcome.  `Except.ok true` is "exists" (200), `Except.ok
false` is "not found" (404), `Except.error` carries the failure message
built by the Rust code. -/
def check_jira_issue_exists (jira_url username api_token issue_key : String)
    (net : HttpOutcome) : Except String Bool :=
  match net with
  | .transport e =>
    .error ("Request to " ++ jira_api_url jira_url issue_key ++ " failed: " ++ e)
  | .response status _body =>
    if status = 200 then .ok true
    else if status = 404 then .ok false
    else if status = 401 then
      .error ("Unauthorized (401): Failed to authenticate with Jira at " ++
        jira_api_url jira_url issue_key ++ ". Check credentials.")
    else if status = 403 then
      .error ("Forbidden (403): Insufficient permissions for Jira issue " ++
        issue_key ++ " at " ++ jira_api_url jira_url issue_key ++ ".")
    else if 500 ≤ status && status ≤ 599 then
      .error ("Jira server error (" ++ toString status ++ ") for issue " ++
        issue_key ++ " at " ++ jira_api_url jira_url issue_key ++ ".")
    else
      .error ("Unexpected response status (" ++ toString status ++ ") for issue " ++
        issue_key ++ " at " ++ jira_api_url jira_url issue_key ++ ".")

/-- The checker seen as a client of the HTTP transport: it issues its one
GET at exactly `jira_api_url jira_url issue_key` and maps the outcome. -/
def checkJiraWithNet (jira_url username api_token issue_key : String)
    (net : String → HttpOutcome) : Except String Bool :=
  check_jira_issue_exists jira_url username api_token issue_key
    (net (jira_api_url jira_url issue_key))

/-- Kinds of git objects a revision reference can resolve to. -/
inductive ObjKind where
  | commit | tag | tree | blob
deriving DecidableEq

/-- A resolved git object: its object id and its kind.  `kind = .commit`
models a successful `Object::as_commit` in libgit2. -/
structure GitObject where
  oid : Nat
  kind : ObjKind
deriving DecidableEq

/-- The data `git_utils.rs` reads from one commit: `summary()` (None for a
commit with no valid summary line) and `short_id()` (outer `none` models the
short-id computation failing, inner `none` a non-UTF-8 buffer). -/
structure GitCommit where
  summary : Option String
  short_id : Option (Option String)
deriving DecidableEq

/-- The abstract repository collaborator: reference resolution, revwalk
construction (`revwalk()` + `push`), hiding a boundary commit, the oid
stream the walk yields (newest first, as libgit2 produces it), and commit
lookup.  All run-time git failures surface as `Except.error` with the
underlying library message. -/
structure Repo where
  revparse_single : String → Except String GitObject
  revwalk_new : Except String Unit
  push : Nat → Except String Unit
  hide : Nat → Except String Unit
  walkItems : Nat → Nat → List (Except String Nat)
  find_commit : Nat → Except String GitCommit

/-- Record `CommitBriefInfo` from `src/git_utils.rs`. -/
structure CommitBriefInfo where
  id : String
  summary : String
deriving DecidableEq

/-- How the loop body of `get_commit_messages` turns one looked-up commit
into a `CommitBriefInfo`: `summary().unwrap_or("<No commit summary>")` and
`short_id().map(|buf| buf.as_str().unwrap_or("")).unwrap_or_else(|_| oid)`. -/
def briefOf (oid : Nat) (c : GitCommit) : CommitBriefInfo :=
  { id :=
      match c.short_id with
      | some (some s) => s
      | some none => ""
      | none => toString oid
    summary := c.summary.getD "<No commit summary>" }

/-- The revwalk loop of `get_commit_messages`: each yielded oid is looked
up and appended in walk order; any item error or lookup error aborts the
whole function with the corresponding message. -/
def collectCommits (repo : Repo) : List (Except String Nat) → Except String (List CommitBriefInfo)
  | [] => .ok []
  | item :: rest =>
    match item with
    | .error e => .error ("Error during revwalk: " ++ e)
    | .ok oid =>
      match repo.find_commit oid with
      | .error e => .error ("Failed to find commit " ++ toString oid ++ ": " ++ e)
      | .ok c => (collectCommits repo rest).map (fun l => briefOf oid c :: l)

/-- Function `get_commit_messages` from `src/git_utils.rs`: resolve both refs, build
the revwalk pushing `end_ref` and hiding `start_ref` (re-resolved, and
required to be a commit object), collect the walked commits in walk order
and reverse the collected list before returning it. -/
def get_commit_messages (repo : Repo) (start_ref end_ref : String) :
    Except String (List CommitBriefInfo) :=
  match repo.revparse_single start_ref with
  | .error e => .error ("Failed to resolve start_ref " ++ quoteS ++ start_ref ++ quoteS ++ ": " ++ e)
  | .ok _startObj =>
    match repo.revparse_single end_ref with
    | .error e => .error ("Failed to resolve end_ref " ++ quoteS ++ end_ref ++ quoteS ++ ": " ++ e)
    | .ok endObj =>
      match repo.revwalk_new with
      | .error e => .error ("Failed to create revwalk: " ++ e)
      | .ok _ =>
        match repo.push endObj.oid with
        | .error e => .error ("Failed to push end_commit_oid: " ++ e)
        | .ok _ =>
          match repo.revparse_single start_ref with
          | .error _ =>
            .error ("Failed to resolve start_ref " ++ quoteS ++ start_ref ++ quoteS ++ " for hiding")
          | .ok start_commit_obj =>
            if start_commit_obj.kind = ObjKind.commit then
              match repo.hide start_commit_obj.oid with
              | .error e => .error ("Failed to hide start_ref commit: " ++ e)
              | .ok _ =>
                (collectCommits repo (repo.walkItems endObj.oid start_commit_obj.oid)).map
                  List.reverse
            else
              .error ("start_ref " ++ quoteS ++ start_ref ++ quoteS ++ " does not point to a commit")

/-- Record `CommitValidationInfo` from `src/main.rs`. -/
structure CommitValidationInfo where
  commit_hash_short : String
  commit_summary : String
  is_valid : Bool
  error_message : Option String
  jira_keys_found : List String
deriving DecidableEq

/-- One iteration of the validation loop in `main`: extract the keys from
the commit summary; with no keys the commit is invalid with the no-keys
message, otherwise only the first key is checked and the checker outcome
decides the verdict and message. -/
def validateCommit (checker : String → Except String Bool) (cb : CommitBriefInfo) :
    CommitValidationInfo :=
  match extract_jira_keys cb.summary with
  | [] =>
    { commit_hash_short := cb.id
      commit_summary := cb.summary
      is_valid := false
      error_message := some "No Jira keys found in commit summary."
      jira_keys_found := [] }
  | first_key :: rest_keys =>
    match checker first_key with
    | .ok true =>
      { commit_hash_short := cb.id
        commit_summary := cb.summary
        is_valid := true
        error_message := none
        jira_keys_found := first_key :: rest_keys }
    | .ok false =>
      { commit_hash_short := cb.id
        commit_summary := cb.summary
        is_valid := false
        error_message := some ("Jira key " ++ quoteS ++ first_key ++ quoteS ++
          " not found in Jira project (HTTP 404).")
        jira_keys_found := first_key :: rest_keys }
    | .error e =>
      { commit_hash_short := cb.id
        commit_summary := cb.summary
        is_valid := false
        error_message := some ("Error validating Jira key " ++ quoteS ++ first_key ++
          quoteS ++ ": " ++ e)
        jira_keys_found := first_key :: rest_keys }

/-- The strictly sequential validation loop of `main`: one record is pushed
per commit brief, in input order. -/
def runValidation (checker : String → Except String Bool) :
    List CommitBriefInfo → List CommitValidationInfo
  | [] => []
  | cb :: rest => validateCommit checker cb :: runValidation checker rest

/-- Counter `valid_commits_count` accumulated by the loop in `main`: the number of
records marked valid. -/
def valid_commits_count (infos : List CommitValidationInfo) : Nat :=
  (infos.filter (fun i => i.is_valid)).length

/-- Counter `invalid_commits_count` from `main`: `total_commits - valid_commits_count`. -/
def invalid_commits_count (infos : List CommitValidationInfo) : Nat :=
  infos.length - valid_commits_count infos

/-- The final branch of `main`: exit 1 when any record is invalid, exit 0
otherwise. -/
def summaryExitCode (infos : List CommitValidationInfo) : Nat :=
  if invalid_commits_count infos > 0 then 1 else 0

/-- The whole of `main` after argument parsing, as exit code plus the
per-commit records it produced: resolver failure exits 1 with no records,
an empty range exits 0 with no records, and otherwise the validation loop
runs and the summary branch picks the exit code. -/
def mainRun (repo : Repo) (checker : String → Except String Bool)
    (start_ref end_ref : String) : Nat × List CommitValidationInfo :=
  match get_commit_messages repo start_ref end_ref with
  | .error _ => (1, [])
  | .ok commit_briefs =>
    if commit_briefs.isEmpty then (0, [])
    else
      let infos := runValidation checker commit_briefs
      (summaryExitCode infos, infos)

/-- A tiny concrete repository used to exercise the range resolver: `base`
and `tip` are commits, the walk from `tip` hiding `base` yields oids 3 then
2 (newest first). -/
def demoRepo : Repo :=
  { revparse_single := fun r =>
      if r = "base" then .ok { oid := 1, kind := .commit }
      else if r = "tip" then .ok { oid := 3, kind := .commit }
      else .error "revspec not found"
    revwalk_new := .ok ()
    push := fun _ => .ok ()
    hide := fun _ => .ok ()
    walkItems := fun e s => if e = 3 && s = 1 then [.ok 3, .ok 2] else []
    find_commit := fun oid =>
      if oid = 2 then .ok { summary := some "ABC-2 second", short_id := some (some "c2") }
      else if oid = 3 then .ok { summary := some "ABC-3 third", short_id := some (some "c3") }
      else .error "object not found" }

/-- A variant of `demoRepo` whose start reference resolves to an annotated
tag object (not a commit). -/
def demoRepoTag : Repo :=
  { demoRepo with
    revparse_single := fun r =>
      if r = "base" then .ok { oid := 1, kind := .tag }
      else if r = "tip" then .ok { oid := 3, kind := .commit }
      else .error "revspec not found" }

/-- A variant of `demoRepo` containing a commit (oid 7) whose summary line
is absent. -/
def demoRepoNoSummary : Repo :=
  { demoRepo with
    walkItems := fun e s => if e = 3 && s = 1 then [.ok 7] else []
    find_commit := fun oid =>
      if oid = 7 then .ok { summary := none, short_id := some (some "c7") }
      else .error "object not found" }

/-!  Theorems.  First the key-extractor (C1), then the existence checker
(C2, C9), the range resolver (C7, C8, C10) and the orchestrator
(C3, C4, C5, C6). -/

/-- Lemma: `takeWhile` runs through a block that wholly satisfies `p` and stops at
the first failing character. -/
theorem takeWhile_append_of_all {p : Char → Bool} {u : List Char} {x : Char} {t : List Char}
    (hu : ∀ c ∈ u, p c = true) (hx : p x = false) :
    (u ++ x :: t).takeWhile p = u := by
  induction u with
  | nil => simp [List.takeWhile_cons, hx]
  | cons a u ih =>
    have ha : p a = true := hu a (List.mem_cons_self a u)
    simp only [List.cons_append, List.takeWhile_cons, ha, if_true]
    rw [ih (fun c hc => hu c (List.mem_cons_of_mem a hc))]

/-- Lemma: the `dropWhile` counterpart of `takeWhile_append_of_all`. -/
theorem dropWhile_append_of_all {p : Char → Bool} {u : List Char} {x : Char} {t : List Char}
    (hu : ∀ c ∈ u, p c = true) (hx : p x = false) :
    (u ++ x :: t).dropWhile p = x :: t := by
  induction u with
  | nil => simp [List.dropWhile_cons, hx]
  | cons a u ih =>
    have ha : p a = true := hu a (List.mem_cons_self a u)
    simp only [List.cons_append, List.dropWhile_cons, ha, if_true]
    exact ih (fun c hc => hu c (List.mem_cons_of_mem a hc))

/-- An anchored match splits the input and the emitted key is a full word
of the regex language. -/
theorem startKey_eq {s k r : List Char} (h : startKey s = some (k, r)) :
    s = k ++ r ∧ MatchesKeyPat k := by
  unfold startKey at h
  split at h
  next => exact absurd h (by simp)
  next u0 u1 htw =>
    split at h
    next => exact absurd h (by simp)
    next c r2 hdw =>
      split at h
      case isFalse hc => exact absurd h (by simp)
      case isTrue hc =>
        split at h
        next => exact absurd h (by simp)
        next d0 d1 htw2 =>
          injection h with h1
          have hk : (u0 :: u1) ++ c :: d0 :: d1 = k := congrArg Prod.fst h1
          have hr : r2.dropWhile isDigit09 = r := congrArg Prod.snd h1
          have hs : s = (u0 :: u1) ++ c :: r2 := by
            rw [← htw, ← hdw, List.takeWhile_append_dropWhile]
          have hr2 : r2 = (d0 :: d1) ++ r2.dropWhile isDigit09 := by
            conv_lhs => rw [← List.takeWhile_append_dropWhile (p := isDigit09) (l := r2)]
            rw [htw2]
          constructor
          · rw [← hk, ← hr, hs]
            conv_lhs => rw [hr2]
            simp
          · refine ⟨u0 :: u1, d0 :: d1, ?_, by simp, by simp, ?_, ?_⟩
            · rw [← hk, hc]
            · intro x hx
              rw [← htw] at hx
              exact List.mem_takeWhile_imp hx
            · intro x hx
              rw [← htw2] at hx
              exact List.mem_takeWhile_imp hx

/-- A word of the regex language is never empty. -/
theorem matchesKeyPat_ne_nil {m : List Char} (h : MatchesKeyPat m) : m ≠ [] := by
  obtain ⟨u, d, hm, -, -, -, -⟩ := h
  intro hnil
  rw [hnil] at hm
  exact List.append_ne_nil_of_right_ne_nil u (by simp) hm.symm

/-- If a full word of the regex language sits at the head of the input, the
anchored matcher succeeds: the maximal uppercase run cannot overshoot the
run of the word itself, because the hyphen of the word stops it. -/
theorem startKey_of_head_match {m post : List Char} (h : MatchesKeyPat m) :
    startKey (m ++ post) ≠ none := by
  obtain ⟨u, d, hm, hu, hd, hup, hdig⟩ := h
  rcases u with _ | ⟨a, u1⟩
  · exact absurd rfl hu
  rcases d with _ | ⟨d0, d1⟩
  · exact absurd rfl hd
  have hdash : isUpperAZ '-' = false := by decide
  have hs : m ++ post = (a :: u1) ++ '-' :: ((d0 :: d1) ++ post) := by
    rw [hm]; simp
  have htw : (m ++ post).takeWhile isUpperAZ = a :: u1 := by
    rw [hs]; exact takeWhile_append_of_all hup hdash
  have hdw : (m ++ post).dropWhile isUpperAZ = '-' :: ((d0 :: d1) ++ post) := by
    rw [hs]; exact dropWhile_append_of_all hup hdash
  have htwd : ((d0 :: d1) ++ post).takeWhile isDigit09 =
      d0 :: (d1 ++ post).takeWhile isDigit09 := by
    have hd0 : isDigit09 d0 = true := hdig d0 (List.mem_cons_self d0 d1)
    simp [List.takeWhile_cons, hd0]
  unfold startKey
  rw [htw, hdw]
  simp only [if_pos rfl]
  rw [htwd]
  simp

/-- Each anchored match consumes at least one character. -/
theorem startKey_rest_lt {s k r : List Char} (h : startKey s = some (k, r)) :
    r.length < s.length := by
  obtain ⟨hs, hm⟩ := startKey_eq h
  have hk := matchesKeyPat_ne_nil hm
  rw [hs, List.length_append]
  have : 0 < k.length := List.length_pos.mpr hk
  omega

/-- Every key the scanner emits is a full word of the regex language. -/
theorem scanKeysF_sound :
    ∀ (f : Nat) (s : List Char), s.length ≤ f → ∀ k ∈ scanKeysF f s, MatchesKeyPat k := by
  intro f
  induction f with
  | zero => intro s hs k hk; simp [scanKeysF] at hk
  | succ f ih =>
    intro s hs k hk
    cases s with
    | nil => simp [scanKeysF] at hk
    | cons c rest =>
      have hrest : rest.length ≤ f := by
        simp [List.length_cons] at hs; omega
      simp only [scanKeysF] at hk
      cases hsk : startKey (c :: rest) with
      | none =>
        rw [hsk] at hk
        exact ih rest hrest k hk
      | some kr =>
        obtain ⟨k0, r⟩ := kr
        rw [hsk] at hk
        rcases List.mem_cons.mp hk with rfl | hk2
        · exact (startKey_eq hsk).2
        · have hr : r.length ≤ f := by
            have := startKey_rest_lt hsk
            simp [List.length_cons] at this
            omega
          exact ih r hr k hk2

/-- The emitted keys occur in the scanned text as non-overlapping
substrings, in emission order. -/
theorem scanKeysF_occurs :
    ∀ (f : Nat) (s : List Char), s.length ≤ f → OccursInOrder (scanKeysF f s) s := by
  intro f
  induction f with
  | zero => intro s hs; exact OccursInOrder.nil s
  | succ f ih =>
    intro s hs
    cases s with
    | nil => exact OccursInOrder.nil []
    | cons c rest =>
      have hrest : rest.length ≤ f := by
        simp [List.length_cons] at hs; omega
      simp only [scanKeysF]
      cases hsk : startKey (c :: rest) with
      | none => exact OccursInOrder.skip _ c rest (ih rest hrest)
      | some kr =>
        obtain ⟨k0, r⟩ := kr
        have hr : r.length ≤ f := by
          have := startKey_rest_lt hsk
          simp [List.length_cons] at this
          omega
        have hsplit := (startKey_eq hsk).1
        rw [hsplit]
        exact OccursInOrder.key k0 _ r (ih r hr)

/-- If the scanner finds nothing, the text contains no substring in the
regex language at all. -/
theorem scanKeysF_complete :
    ∀ (f : Nat) (s : List Char), s.length ≤ f → scanKeysF f s = [] →
      ∀ pre mid post, s = pre ++ mid ++ post → MatchesKeyPat mid → False := by
  intro f
  induction f with
  | zero =>
    intro s hs _ pre mid post hsplit hmid
    have : s = [] := List.eq_nil_of_length_eq_zero (Nat.le_zero.mp hs)
    rw [this] at hsplit
    have := List.append_eq_nil.mp hsplit.symm
    have := List.append_eq_nil.mp this.1
    exact matchesKeyPat_ne_nil hmid this.2
  | succ f ih =>
    intro s hs hscan pre mid post hsplit hmid
    cases s with
    | nil =>
      have := List.append_eq_nil.mp hsplit.symm
      have := List.append_eq_nil.mp this.1
      exact matchesKeyPat_ne_nil hmid this.2
    | cons c rest =>
      have hrest : rest.length ≤ f := by
        simp [List.length_cons] at hs; omega
      simp only [scanKeysF] at hscan
      cases hsk : startKey (c :: rest) with
      | some kr =>
        rw [hsk] at hscan
        obtain ⟨k0, r⟩ := kr
        simp at hscan
      | none =>
        rw [hsk] at hscan
        cases pre with
        | nil =>
          simp only [List.nil_append] at hsplit
          rw [hsplit] at hsk
          exact startKey_of_head_match hmid hsk
        | cons p0 pre2 =>
          have hrest2 : rest = pre2 ++ mid ++ post := by
            simpa using congrArg List.tail hsplit
          exact ih rest hrest hscan pre2 mid post hrest2 hmid

/-- Words of the regex language contain no lowercase letter. -/
theorem matchesKeyPat_not_lower {m : List Char} (h : MatchesKeyPat m) :
    ∀ c ∈ m, isLowerAZ c = false := by
  obtain ⟨u, d, hm, -, -, hup, hdig⟩ := h
  intro c hc
  rw [hm] at hc
  rcases List.mem_append.mp hc with hcu | hcd
  · have := hup c hcu
    simp [isUpperAZ] at this
    simp [isLowerAZ]
    omega
  · rcases List.mem_cons.mp hcd with rfl | hcd2
    · decide
    · have := hdig c hcd2
      simp [isDigit09] at this
      simp [isLowerAZ]
      omega

/-- C1.  `extract_jira_keys` is total and pure, and on every input it
returns exactly the non-overlapping left-to-right matches of
`[A-Z]+-[0-9]+`: every returned key is a full word of that language,
the keys occur in the text in order of first appearance (duplicates
preserved as separate occurrences), lowercase project codes are never
matched, and when it returns nothing the text has no matching substring at
all; the concrete examples fix the scanning behaviour of the regex. -/
theorem extract_jira_keys_spec (s : String) :
    (∀ k ∈ extract_jira_keys s, MatchesKeyPat k.data) ∧
    (∀ k ∈ extract_jira_keys s, ∀ c ∈ k.data, isLowerAZ c = false) ∧
    OccursInOrder ((extract_jira_keys s).map String.data) s.data ∧
    (extract_jira_keys s = [] →
      ∀ pre mid post, s.data = pre ++ mid ++ post → ¬ MatchesKeyPat mid) ∧
    (extract_jira_keys "Fix for ABC-123" = ["ABC-123"] ∧
     extract_jira_keys "abc-123" = [] ∧
     extract_jira_keys "XYZ-789, PROJ-001, TEST-100" = ["XYZ-789", "PROJ-001", "TEST-100"] ∧
     extract_jira_keys "plain text" = [] ∧
     extract_jira_keys "see ABC-1 and ABC-1" = ["ABC-1", "ABC-1"]) := by
  have hmem : ∀ k ∈ extract_jira_keys s, MatchesKeyPat k.data := by
    intro k hk
    obtain ⟨k0, hk0, rfl⟩ := List.mem_map.mp hk
    exact scanKeysF_sound s.data.length s.data (Nat.le_refl _) k0 hk0
  refine ⟨hmem, ?_, ?_, ?_, by decide, by decide, by decide, by decide, by decide⟩
  · intro k hk
    exact matchesKeyPat_not_lower (hmem k hk)
  · have hmap : (extract_jira_keys s).map String.data =
        scanKeysF s.data.length s.data := by
      unfold extract_jira_keys
      rw [List.map_map]
      exact List.map_id _
    rw [hmap]
    exact scanKeysF_occurs s.data.length s.data (Nat.le_refl _)
  · intro hnil pre mid post hsplit hmid
    have : scanKeysF s.data.length s.data = [] := by
      have h2 := congrArg (List.map String.data) (show extract_jira_keys s = [] from hnil)
      simp only [List.map_nil] at h2
      rw [show (extract_jira_keys s).map String.data = scanKeysF s.data.length s.data from by
        unfold extract_jira_keys; rw [List.map_map]; exact List.map_id _] at h2
      exact h2
    exact scanKeysF_complete s.data.length s.data (Nat.le_refl _) this pre mid post hsplit hmid

/-- Witness for C1 at concrete inputs: a key extracted from a real commit
message is a word of the pattern language, and the empty result on a
lowercase code certifies the absence of any matching substring. -/
theorem extract_jira_keys_spec_witness :
    MatchesKeyPat ("ABC-123".data) ∧ ¬ MatchesKeyPat ("abc-123".data) :=
  ⟨(extract_jira_keys_spec "Fix for ABC-123").1 "ABC-123" (by decide),
   (extract_jira_keys_spec "abc-123").2.2.2.1 (by decide) [] "abc-123".data [] (by simp)⟩

theorem startsWithL_self_append (n t : List Char) : startsWithL n (n ++ t) = true := by
  induction n with
  | nil => rfl
  | cons a n ih => simp [startsWithL, ih]

theorem occursL_self_append (n t : List Char) : occursL n (n ++ t) = true := by
  cases n with
  | nil =>
    cases t with
    | nil => rfl
    | cons c t2 => simp [occursL, startsWithL]
  | cons a n1 =>
    simp only [List.cons_append, occursL, startsWithL_self_append]
    simp [startsWithL, startsWithL_self_append]

theorem occursL_cons_of (n : List Char) (c : Char) (t : List Char)
    (h : occursL n t = true) : occursL n (c :: t) = true := by
  simp [occursL, h]

theorem occursL_append_left (n p t : List Char) (h : occursL n t = true) :
    occursL n (p ++ t) = true := by
  induction p with
  | nil => simpa
  | cons a p ih => simpa [List.cons_append] using occursL_cons_of n a (p ++ t) ih

theorem strContains_of_data (hay needle : String) (pre suf : List Char)
    (h : hay.data = pre ++ (needle.data ++ suf)) : strContains hay needle = true := by
  unfold strContains
  rw [h]
  exact occursL_append_left _ _ _ (occursL_self_append _ _)

theorem contains_unauth (mid : String) :
    strContains ("Unauthorized (401): Failed to authenticate with Jira at " ++ mid ++
      ". Check credentials.") "Unauthorized" = true := by
  apply strContains_of_data _ _ []
    (" (401): Failed to authenticate with Jira at ".data ++ mid.data ++
      ". Check credentials.".data)
  have hl : ("Unauthorized (401): Failed to authenticate with Jira at ").data =
      "Unauthorized".data ++ " (401): Failed to authenticate with Jira at ".data := by decide
  simp [String.data_append, hl]

theorem contains_forbidden (k mid : String) :
    strContains ("Forbidden (403): Insufficient permissions for Jira issue " ++ k ++
      " at " ++ mid ++ ".") "Forbidden" = true := by
  apply strContains_of_data _ _ []
    (" (403): Insufficient permissions for Jira issue ".data ++ k.data ++
      " at ".data ++ mid.data ++ ".".data)
  have hl : ("Forbidden (403): Insufficient permissions for Jira issue ").data =
      "Forbidden".data ++ " (403): Insufficient permissions for Jira issue ".data := by decide
  simp [String.data_append, hl]

theorem contains_server (st k mid : String) :
    strContains ("Jira server error (" ++ st ++ ") for issue " ++ k ++ " at " ++ mid ++ ".")
      "server error" = true := by
  apply strContains_of_data _ _ "Jira ".data
    (" (".data ++ st.data ++ ") for issue ".data ++ k.data ++ " at ".data ++
      mid.data ++ ".".data)
  have hl : ("Jira server error (").data =
      "Jira ".data ++ ("server error".data ++ " (".data) := by decide
  simp [String.data_append, hl]

theorem contains_unexpected (st k mid : String) :
    strContains ("Unexpected response status (" ++ st ++ ") for issue " ++ k ++ " at " ++
      mid ++ ".") "Unexpected response status" = true := by
  apply strContains_of_data _ _ []
    (" (".data ++ st.data ++ ") for issue ".data ++ k.data ++ " at ".data ++
      mid.data ++ ".".data)
  have hl : ("Unexpected response status (").data =
      "Unexpected response status".data ++ " (".data := by decide
  simp [String.data_append, hl]

theorem contains_transport (mid e : String) :
    strContains ("Request to " ++ mid ++ " failed: " ++ e) e = true := by
  apply strContains_of_data _ _ ("Request to ".data ++ mid.data ++ " failed: ".data) []
  simp [String.data_append]

/-- C2.  The existence check maps the remote outcome to a verdict purely
by status code: 200 is Exists (`ok true`), 404 is NotFound (`ok false`),
401/403/5xx/other statuses are LookupFailed (`error`) with messages
mentioning Unauthorized, Forbidden, a server error and an unexpected
status respectively, a transport failure is LookupFailed carrying the
transport error text, and the response body never influences the result. -/
theorem check_jira_issue_exists_spec
    (jira_url username api_token issue_key body e : String) (status : Nat) :
    check_jira_issue_exists jira_url username api_token issue_key (.response 200 body) =
      .ok true ∧
    check_jira_issue_exists jira_url username api_token issue_key (.response 404 body) =
      .ok false ∧
    (∃ m, check_jira_issue_exists jira_url username api_token issue_key (.response 401 body) =
      .error m ∧ strContains m "Unauthorized" = true) ∧
    (∃ m, check_jira_issue_exists jira_url username api_token issue_key (.response 403 body) =
      .error m ∧ strContains m "Forbidden" = true) ∧
    (500 ≤ status → status ≤ 599 →
      ∃ m, check_jira_issue_exists jira_url username api_token issue_key
          (.response status body) = .error m ∧ strContains m "server error" = true) ∧
    (status ≠ 200 → status ≠ 404 → status ≠ 401 → status ≠ 403 →
      ¬(500 ≤ status ∧ status ≤ 599) →
      ∃ m, check_jira_issue_exists jira_url username api_token issue_key
          (.response status body) = .error m ∧
        strContains m "Unexpected response status" = true) ∧
    (∃ m, check_jira_issue_exists jira_url username api_token issue_key (.transport e) =
      .error m ∧ strContains m e = true) ∧
    (∀ body2, check_jira_issue_exists jira_url username api_token issue_key
        (.response status body) =
      check_jira_issue_exists jira_url username api_token issue_key
        (.response status body2)) := by
  refine ⟨rfl, rfl, ⟨_, rfl, contains_unauth _⟩, ⟨_, rfl, contains_forbidden _ _⟩,
    ?_, ?_, ⟨_, rfl, contains_transport _ _⟩, fun body2 => rfl⟩
  · intro h5 h9
    have h200 : ¬(status = 200) := by omega
    have h404 : ¬(status = 404) := by omega
    have h401 : ¬(status = 401) := by omega
    have h403 : ¬(status = 403) := by omega
    have hcond : (500 ≤ status && status ≤ 599) = true := by
      simp only [Bool.and_eq_true, decide_eq_true_eq]
      exact ⟨h5, h9⟩
    refine ⟨"Jira server error (" ++ toString status ++ ") for issue " ++ issue_key ++
      " at " ++ jira_api_url jira_url issue_key ++ ".", ?_, contains_server _ _ _⟩
    simp only [check_jira_issue_exists, if_neg h200, if_neg h404, if_neg h401, if_neg h403,
      hcond, if_true]
  · intro h200 h404 h401 h403 hno
    have hcond : ¬((500 ≤ status && status ≤ 599) = true) := by
      simp only [Bool.and_eq_true, decide_eq_true_eq]
      exact fun h => hno ⟨h.1, h.2⟩
    refine ⟨"Unexpected response status (" ++ toString status ++ ") for issue " ++
      issue_key ++ " at " ++ jira_api_url jira_url issue_key ++ ".", ?_,
      contains_unexpected _ _ _⟩
    simp only [check_jira_issue_exists, if_neg h200, if_neg h404, if_neg h401, if_neg h403,
      if_neg hcond]

/-- Witness for C2: the 5xx and catch-all branches at concrete statuses
503 and 302, with their side conditions discharged by evaluation. -/
theorem check_jira_issue_exists_spec_witness :
    (∃ m, check_jira_issue_exists "http://j" "u" "t" "K-1" (.response 503 "body!") =
      .error m ∧ strContains m "server error" = true) ∧
    (∃ m, check_jira_issue_exists "http://j" "u" "t" "K-1" (.response 302 "") =
      .error m ∧ strContains m "Unexpected response status" = true) :=
  ⟨(check_jira_issue_exists_spec "http://j" "u" "t" "K-1" "body!" "" 503).2.2.2.2.1
      (by decide) (by decide),
   (check_jira_issue_exists_spec "http://j" "u" "t" "K-1" "" "" 302).2.2.2.2.2.1
      (by decide) (by decide) (by decide) (by decide) (by decide)⟩

theorem head_dropWhile_not {p : Char → Bool} :
    ∀ (l : List Char) (a : Char), (l.dropWhile p).head? = some a → p a = false := by
  intro l
  induction l with
  | nil => intro a h; simp [List.dropWhile] at h
  | cons x t ih =>
    intro a h
    by_cases hx : p x = true
    · rw [List.dropWhile_cons_of_pos hx] at h
      exact ih a h
    · rw [List.dropWhile_cons_of_neg hx] at h
      simp at h
      rw [← h]
      simpa using hx

theorem trim_end_matches_split (s : String) (c : Char) :
    ∃ n, s.data = (trim_end_matches s c).data ++ List.replicate n c := by
  refine ⟨(s.data.reverse.takeWhile (fun x => x = c)).length, ?_⟩
  have hrep : s.data.reverse.takeWhile (fun x => x = c) =
      List.replicate (s.data.reverse.takeWhile (fun x => x = c)).length c := by
    apply List.eq_replicate_of_mem
    intro b hb
    have := List.mem_takeWhile_imp hb
    simpa using this
  conv_lhs => rw [← List.reverse_reverse s.data,
    ← List.takeWhile_append_dropWhile (p := fun x => x = c) (l := s.data.reverse)]
  rw [List.reverse_append]
  unfold trim_end_matches
  rw [congrArg List.reverse hrep, List.reverse_replicate]

theorem trim_end_matches_no_trail (s : String) (c : Char) :
    (trim_end_matches s c).data.getLast? ≠ some c := by
  unfold trim_end_matches
  intro h
  rw [List.getLast?_reverse] at h
  have := head_dropWhile_not (p := fun x => x = c) s.data.reverse c h
  simp at this

/-- C9.  The single GET of the existence checker targets exactly the URL
obtained by stripping every trailing slash from the tracker base URL and
appending the fixed path `/rest/api/2/issue/` plus the ticket key: the
stripped prefix never ends in a slash, stripping removes only trailing
slashes, and the checker result depends on the transport only at that
one URL. -/
theorem jira_api_url_spec (jira_url username api_token issue_key : String) :
    jira_api_url jira_url issue_key =
      trim_end_matches jira_url '/' ++ "/rest/api/2/issue/" ++ issue_key ∧
    (∃ n, jira_url.data = (trim_end_matches jira_url '/').data ++ List.replicate n '/') ∧
    (trim_end_matches jira_url '/').data.getLast? ≠ some '/' ∧
    (∀ net net2 : String → HttpOutcome,
      net (jira_api_url jira_url issue_key) = net2 (jira_api_url jira_url issue_key) →
      checkJiraWithNet jira_url username api_token issue_key net =
        checkJiraWithNet jira_url username api_token issue_key net2) :=
  ⟨rfl, trim_end_matches_split _ _, trim_end_matches_no_trail _ _,
   fun net net2 h => by unfold checkJiraWithNet; rw [h]⟩

/-- Witness for C9: a base URL with three trailing slashes produces the
canonical URL, and a transport distinguished only away from that URL
cannot change the verdict. -/
theorem jira_api_url_spec_witness :
    jira_api_url "http://jira.example.com///" "KEY-1" =
      "http://jira.example.com/rest/api/2/issue/KEY-1" ∧
    checkJiraWithNet "http://jira.example.com///" "u" "t" "KEY-1"
        (fun url => if url = "http://jira.example.com/rest/api/2/issue/KEY-1"
          then .response 200 "" else .transport "wrong url") =
      checkJiraWithNet "http://jira.example.com///" "u" "t" "KEY-1"
        (fun _ => .response 200 "") :=
  ⟨by decide,
   (jira_api_url_spec "http://jira.example.com///" "u" "t" "KEY-1").2.2.2 _ _ (by decide)⟩

/-- C7.  On a successfully resolved range, `get_commit_messages` returns
exactly the reverse of the commit list collected in graph-traversal order
(newest first as the walk yields it), so the returned sequence is
oldest-first. -/
theorem get_commit_messages_reverse_spec
    (repo : Repo) (start_ref end_ref : String) (so eo : GitObject) (l : List CommitBriefInfo)
    (hs : repo.revparse_single start_ref = .ok so)
    (he : repo.revparse_single end_ref = .ok eo)
    (hw : repo.revwalk_new = .ok ())
    (hp : repo.push eo.oid = .ok ())
    (hk : so.kind = ObjKind.commit)
    (hh : repo.hide so.oid = .ok ())
    (hc : collectCommits repo (repo.walkItems eo.oid so.oid) = .ok l) :
    get_commit_messages repo start_ref end_ref = .ok l.reverse := by
  simp only [get_commit_messages, hs, he, hw, hp, hk, if_true, hh, hc]
  rfl

/-- C8.  With both refs resolved and the walk pushed, a start reference
whose resolved object is not a commit fails the whole run with the
ref-not-a-commit error, while a commit start reference is accepted and
used as the hidden (exclusive) lower boundary of the walk. -/
theorem start_ref_commit_gate_spec
    (repo : Repo) (start_ref end_ref : String) (so eo : GitObject)
    (hs : repo.revparse_single start_ref = .ok so)
    (he : repo.revparse_single end_ref = .ok eo)
    (hw : repo.revwalk_new = .ok ())
    (hp : repo.push eo.oid = .ok ()) :
    (so.kind ≠ ObjKind.commit →
      get_commit_messages repo start_ref end_ref =
        .error ("start_ref " ++ quoteS ++ start_ref ++ quoteS ++
          " does not point to a commit")) ∧
    (so.kind = ObjKind.commit → repo.hide so.oid = .ok () →
      get_commit_messages repo start_ref end_ref =
        (collectCommits repo (repo.walkItems eo.oid so.oid)).map List.reverse) := by
  constructor
  · intro hk
    simp only [get_commit_messages, hs, he, hw, hp, if_neg hk]
  · intro hk hh
    simp only [get_commit_messages, hs, he, hw, hp, hk, if_true, hh]

/-- C10.  A commit whose summary line is absent is not dropped and does
not abort the collection: its record carries the placeholder text
`<No commit summary>`, which contains no ticket key, so the orchestrator
reports it Invalid with the no-keys-found reason. -/
theorem missing_summary_placeholder_spec
    (repo : Repo) (checker : String → Except String Bool) (oid : Nat) (c : GitCommit)
    (rest : List (Except String Nat))
    (hf : repo.find_commit oid = .ok c) (hsum : c.summary = none) :
    collectCommits repo (Except.ok oid :: rest) =
      (collectCommits repo rest).map (fun lst => briefOf oid c :: lst) ∧
    (briefOf oid c).summary = "<No commit summary>" ∧
    extract_jira_keys "<No commit summary>" = [] ∧
    (validateCommit checker (briefOf oid c)).is_valid = false ∧
    (validateCommit checker (briefOf oid c)).error_message =
      some "No Jira keys found in commit summary." ∧
    (validateCommit checker (briefOf oid c)).jira_keys_found = [] := by
  have hb : (briefOf oid c).summary = "<No commit summary>" := by
    simp [briefOf, hsum]
  have hext : extract_jira_keys "<No commit summary>" = [] := by decide
  refine ⟨?_, hb, hext, ?_, ?_, ?_⟩
  · simp only [collectCommits, hf]
  all_goals simp [validateCommit, hb, hext]

/-- Witness for C7 on the concrete demo repository: the walk yields oids
3 then 2, and the returned range is that list reversed (oldest first). -/
theorem get_commit_messages_reverse_spec_witness :
    get_commit_messages demoRepo "base" "tip" =
      .ok ([{ id := "c3", summary := "ABC-3 third" },
            { id := "c2", summary := "ABC-2 second" }] :
        List CommitBriefInfo).reverse :=
  get_commit_messages_reverse_spec demoRepo "base" "tip"
    { oid := 1, kind := .commit } { oid := 3, kind := .commit }
    [{ id := "c3", summary := "ABC-3 third" }, { id := "c2", summary := "ABC-2 second" }]
    rfl rfl rfl rfl rfl rfl rfl

/-- Witness for C8: a start reference resolving to a tag object makes the
resolver fail with the exact ref-not-a-commit message. -/
theorem start_ref_commit_gate_spec_witness :
    get_commit_messages demoRepoTag "base" "tip" =
      .error ("start_ref " ++ quoteS ++ "base" ++ quoteS ++ " does not point to a commit") :=
  (start_ref_commit_gate_spec demoRepoTag "base" "tip"
    { oid := 1, kind := .tag } { oid := 3, kind := .commit }
    rfl rfl rfl rfl).1 (by decide)

/-- Witness for C10 at the concrete summary-less commit with oid 7. -/
theorem missing_summary_placeholder_spec_witness :
    collectCommits demoRepoNoSummary [Except.ok 7] =
      (collectCommits demoRepoNoSummary []).map
        (fun lst => briefOf 7 { summary := none, short_id := some (some "c7") } :: lst) ∧
    (validateCommit (fun _ => .ok true)
      (briefOf 7 { summary := none, short_id := some (some "c7") })).is_valid = false :=
  have h := missing_summary_placeholder_spec demoRepoNoSummary (fun _ => .ok true) 7
    { summary := none, short_id := some (some "c7") } [] rfl rfl
  ⟨h.1, h.2.2.2.1⟩

theorem contains_notfound (k : String) :
    strContains ("Jira key " ++ quoteS ++ k ++ quoteS ++
      " not found in Jira project (HTTP 404).") "not found" = true := by
  apply strContains_of_data _ _
    ("Jira key ".data ++ quoteS.data ++ k.data ++ quoteS.data ++ " ".data)
    (" in Jira project (HTTP 404).".data)
  have hl : (" not found in Jira project (HTTP 404).").data =
      " ".data ++ ("not found".data ++ " in Jira project (HTTP 404).".data) := by decide
  simp [String.data_append, hl]

theorem contains_errvalidating (k e : String) :
    strContains ("Error validating Jira key " ++ quoteS ++ k ++ quoteS ++ ": " ++ e)
      "Error validating" = true := by
  apply strContains_of_data _ _ []
    (" Jira key ".data ++ quoteS.data ++ k.data ++ quoteS.data ++ ": ".data ++ e.data)
  have hl : ("Error validating Jira key ").data =
      "Error validating".data ++ " Jira key ".data := by decide
  simp [String.data_append, hl]

theorem contains_errdetail (k e : String) :
    strContains ("Error validating Jira key " ++ quoteS ++ k ++ quoteS ++ ": " ++ e)
      e = true := by
  apply strContains_of_data _ _
    ("Error validating Jira key ".data ++ quoteS.data ++ k.data ++ quoteS.data ++ ": ".data) []
  simp [String.data_append]

/-- C3.  Per-commit verdict invariant: the record stores all extracted
keys; it is Valid exactly when some key was found and the checker returned
Exists for the first one; when Invalid, a reason message is present and is
exactly one of no-keys-found, not-found-in-tracker (mentioning "not
found") or lookup-error (mentioning the error detail); and the verdict
depends on the checker only at the first key, so later keys are recorded
but never checked. -/
theorem validate_commit_verdict_spec (checker : String → Except String Bool)
    (cb : CommitBriefInfo) :
    (validateCommit checker cb).jira_keys_found = extract_jira_keys cb.summary ∧
    ((validateCommit checker cb).is_valid = true ↔
      ∃ k ks, extract_jira_keys cb.summary = k :: ks ∧ checker k = .ok true) ∧
    ((validateCommit checker cb).is_valid = false →
      ∃ m, (validateCommit checker cb).error_message = some m ∧
        ((extract_jira_keys cb.summary = [] ∧
            m = "No Jira keys found in commit summary.") ∨
         (∃ k ks, extract_jira_keys cb.summary = k :: ks ∧ checker k = .ok false ∧
            strContains m "not found" = true) ∨
         (∃ k ks e, extract_jira_keys cb.summary = k :: ks ∧ checker k = .error e ∧
            strContains m "Error validating" = true ∧ strContains m e = true))) ∧
    (∀ checker2 : String → Except String Bool,
      (∀ k ks, extract_jira_keys cb.summary = k :: ks → checker k = checker2 k) →
      validateCommit checker2 cb = validateCommit checker cb) := by
  cases hext : extract_jira_keys cb.summary with
  | nil =>
    have hv : validateCommit checker cb =
        { commit_hash_short := cb.id, commit_summary := cb.summary, is_valid := false,
          error_message := some "No Jira keys found in commit summary.",
          jira_keys_found := [] } := by
      simp [validateCommit, hext]
    refine ⟨by rw [hv], ?_, ?_, ?_⟩
    · rw [hv]
      constructor
      · intro h; cases h
      · rintro ⟨k, ks, h1, -⟩
        cases h1
    · intro _
      exact ⟨"No Jira keys found in commit summary.", by rw [hv], Or.inl ⟨rfl, rfl⟩⟩
    · intro checker2 h
      simp [validateCommit, hext]
  | cons k ks =>
    cases hchk : checker k with
    | ok b =>
      cases b with
      | true =>
        have hv : validateCommit checker cb =
            { commit_hash_short := cb.id, commit_summary := cb.summary, is_valid := true,
              error_message := none, jira_keys_found := k :: ks } := by
          simp [validateCommit, hext, hchk]
        refine ⟨by rw [hv], ?_, ?_, ?_⟩
        · rw [hv]
          constructor
          · intro _; exact ⟨k, ks, rfl, hchk⟩
          · intro _; rfl
        · intro hfalse
          rw [hv] at hfalse
          cases hfalse
        · intro checker2 h
          have hk2 := h k ks rfl
          simp [validateCommit, hext, ← hk2, hchk]
      | false =>
        have hv : validateCommit checker cb =
            { commit_hash_short := cb.id, commit_summary := cb.summary, is_valid := false,
              error_message := some ("Jira key " ++ quoteS ++ k ++ quoteS ++
                " not found in Jira project (HTTP 404)."),
              jira_keys_found := k :: ks } := by
          simp [validateCommit, hext, hchk]
        refine ⟨by rw [hv], ?_, ?_, ?_⟩
        · rw [hv]
          constructor
          · intro h; cases h
          · rintro ⟨k2, ks2, h1, h2⟩
            injection h1 with hk1 hk2
            subst hk1
            rw [hchk] at h2
            cases h2
        · intro _
          refine ⟨_, by rw [hv], Or.inr (Or.inl ⟨k, ks, rfl, hchk, contains_notfound k⟩)⟩
        · intro checker2 h
          have hk2 := h k ks rfl
          simp [validateCommit, hext, ← hk2, hchk]
    | error e =>
      have hv : validateCommit checker cb =
          { commit_hash_short := cb.id, commit_summary := cb.summary, is_valid := false,
            error_message := some ("Error validating Jira key " ++ quoteS ++ k ++ quoteS ++
              ": " ++ e),
            jira_keys_found := k :: ks } := by
        simp [validateCommit, hext, hchk]
      refine ⟨by rw [hv], ?_, ?_, ?_⟩
      · rw [hv]
        constructor
        · intro h; cases h
        · rintro ⟨k2, ks2, h1, h2⟩
          injection h1 with hk1 hk2
          subst hk1
          rw [hchk] at h2
          cases h2
      · intro _
        exact ⟨_, by rw [hv],
          Or.inr (Or.inr ⟨k, ks, e, rfl, hchk, contains_errvalidating k e,
            contains_errdetail k e⟩)⟩
      · intro checker2 h
        have hk2 := h k ks rfl
        simp [validateCommit, hext, ← hk2, hchk]

/-- Witness for C3: a commit whose summary carries ABC-123 is Valid under
a checker answering Exists. -/
theorem validate_commit_verdict_spec_witness :
    (validateCommit (fun _ => Except.ok true)
      { id := "c1", summary := "Fix for ABC-123" }).is_valid = true :=
  (validate_commit_verdict_spec (fun _ => Except.ok true)
    { id := "c1", summary := "Fix for ABC-123" }).2.1.mpr ⟨"ABC-123", [], by decide, rfl⟩

/-- C4.  The orchestrator produces exactly one validation record per
commit, in input order and never re-ordered: the output has the same
length, the i-th record is the validation of the i-th commit, and the loop
distributes over concatenation, so an Invalid prefix never prevents the
suffix from being evaluated and reported. -/
theorem run_validation_order_spec (checker : String → Except String Bool) :
    (∀ briefs : List CommitBriefInfo,
      (runValidation checker briefs).length = briefs.length) ∧
    (∀ (briefs : List CommitBriefInfo) (i : Nat),
      (runValidation checker briefs)[i]? = (briefs[i]?).map (validateCommit checker)) ∧
    (∀ l1 l2 : List CommitBriefInfo,
      runValidation checker (l1 ++ l2) =
        runValidation checker l1 ++ runValidation checker l2) := by
  refine ⟨?_, ?_, ?_⟩
  · intro briefs
    induction briefs with
    | nil => rfl
    | cons cb rest ih => simp [runValidation, ih]
  · intro briefs
    induction briefs with
    | nil => intro i; simp [runValidation]
    | cons cb rest ih =>
      intro i
      cases i with
      | zero => simp [runValidation]
      | succ j => simpa [runValidation] using ih j
  · intro l1 l2
    induction l1 with
    | nil => rfl
    | cons cb rest ih => simp [runValidation, ih]

/-- C5.  Summary arithmetic of `main`: valid plus invalid counts equal
the total, the exit branch returns 0 exactly when the invalid count is 0,
and the empty record list (zero commits) is vacuously successful. -/
theorem summary_counts_spec (infos : List CommitValidationInfo) :
    valid_commits_count infos + invalid_commits_count infos = infos.length ∧
    (summaryExitCode infos = 0 ↔ invalid_commits_count infos = 0) ∧
    (infos = [] → summaryExitCode infos = 0) := by
  have hle : valid_commits_count infos ≤ infos.length := List.length_filter_le _ _
  refine ⟨by unfold invalid_commits_count; omega, ?_, ?_⟩
  · unfold summaryExitCode
    rcases Nat.eq_zero_or_pos (invalid_commits_count infos) with h | h
    · simp [h]
    · rw [if_pos h]
      constructor
      · intro h10; exact absurd h10 one_ne_zero
      · intro h0; omega
  · intro h
    subst h
    rfl

/-- Witness for C5 at the empty record list. -/
theorem summary_counts_spec_witness :
    summaryExitCode [] = 0 :=
  (summary_counts_spec []).2.2 rfl

/-- C6.  Exit-code contract of `main`: the exit code is always 0 or 1;
a range-resolver failure exits 1 with no per-commit records; on a resolved
range the exit code is 0 exactly when no produced record is invalid
(including the empty range), and the produced records are those of the
validation loop. -/
theorem main_exit_code_spec (repo : Repo) (checker : String → Except String Bool)
    (start_ref end_ref : String) :
    ((mainRun repo checker start_ref end_ref).1 = 0 ∨
      (mainRun repo checker start_ref end_ref).1 = 1) ∧
    (∀ e, get_commit_messages repo start_ref end_ref = .error e →
      mainRun repo checker start_ref end_ref = (1, [])) ∧
    (∀ briefs, get_commit_messages repo start_ref end_ref = .ok briefs →
      (((mainRun repo checker start_ref end_ref).1 = 0 ↔
          invalid_commits_count (runValidation checker briefs) = 0) ∧
        (mainRun repo checker start_ref end_ref).2 = runValidation checker briefs)) := by
  cases hg : get_commit_messages repo start_ref end_ref with
  | error e0 =>
    refine ⟨?_, ?_, ?_⟩
    · right
      simp [mainRun, hg]
    · intro e _
      simp [mainRun, hg]
    · intro briefs hb
      cases hb
  | ok briefs0 =>
    have hmain : mainRun repo checker start_ref end_ref =
        (if briefs0.isEmpty then (0, [])
         else (summaryExitCode (runValidation checker briefs0),
           runValidation checker briefs0)) := by
      simp [mainRun, hg]
    refine ⟨?_, ?_, ?_⟩
    · rw [hmain]
      cases briefs0 with
      | nil => left; rfl
      | cons b bs =>
        simp only [List.isEmpty_cons, if_false, Bool.false_eq_true, if_neg]
        unfold summaryExitCode
        rcases Nat.eq_zero_or_pos
            (invalid_commits_count (runValidation checker (b :: bs))) with h | h
        · left; simp [h]
        · right; simp [if_pos h]
    · intro e he
      cases he
    · intro briefs hb
      injection hb with hb1
      subst hb1
      rw [hmain]
      cases briefs0 with
      | nil =>
        constructor
        · simp [runValidation, invalid_commits_count, valid_commits_count]
        · simp [runValidation]
      | cons b bs =>
        simp only [List.isEmpty_cons, Bool.false_eq_true, if_neg]
        constructor
        · unfold summaryExitCode
          rcases Nat.eq_zero_or_pos
              (invalid_commits_count (runValidation checker (b :: bs))) with h | h
          · simp [h]
          · rw [if_pos h]
            constructor
            · intro h10; exact absurd h10 one_ne_zero
            · intro h0; omega
        · rfl

/-- Witness for C6: the tag-start repository makes the resolver fail, so
the run exits 1 with no records. -/
theorem main_exit_code_spec_witness :
    mainRun demoRepoTag (fun _ => Except.ok true) "base" "tip" = (1, []) :=
  (main_exit_code_spec demoRepoTag (fun _ => Except.ok true) "base" "tip").2.1
    ("start_ref " ++ quoteS ++ "base" ++ quoteS ++ " does not point to a commit") rfl
